import Mathlib

/-!
Verification of the finops-analyzer core against its specification.

Shallow embedding of the analytical core of the repository:
  - models.py: StockHolding and Portfolio with their computed fields,
  - stock_fetcher.py: holding enrichment, the per-field computations of
    analyze_stock (price changes, 30-day volatility, 14-day RSI) and the
    rule-based risk assessment.

Prices and money amounts (Python Decimal / float) are modelled as rationals.
Optional values (Python None) are modelled as Option.  Python truthiness on
numeric fields (None and 0 are both falsy) is modelled explicitly, since the
source guards computed fields with bare `if self.field:` checks.  Pandas NaN
results are modelled as `none` where they arise (RSI of a flat window).
-/

/-- Risk classification enum from models.py (RiskLevel). -/
inductive RiskLevel where
  | LOW
  | MEDIUM
  | HIGH
  | VERY_HIGH
  deriving DecidableEq, Repr

/-- A stock holding from models.py (StockHolding).  Field `pe` is the
price-to-earnings field of the source; `shares` is validated positive by the
source model (pydantic gt=0), carried here as a plain rational. -/
structure StockHolding where
  symbol : String
  shares : ℚ
  cost_basis : Option ℚ := none
  current_price : Option ℚ := none
  company_name : Option String := none
  sector : Option String := none
  industry : Option String := none
  market_cap : Option ℚ := none
  pe : Option ℚ := none
  dividend_yield : Option ℚ := none
  fifty_two_week_high : Option ℚ := none
  fifty_two_week_low : Option ℚ := none
  deriving DecidableEq, Repr

/-- models.py StockHolding.current_value: `if self.current_price: return
self.shares * self.current_price; return None`.  Python truthiness: a price
of exactly 0 is falsy, so it yields None exactly like an absent price. -/
def StockHolding.current_value (h : StockHolding) : Option ℚ :=
  match h.current_price with
  | some p => if p ≠ 0 then some (h.shares * p) else none
  | none => none

/-- models.py StockHolding.total_gain_loss: guarded by
`if self.current_price and self.cost_basis:` (both truthy). -/
def StockHolding.total_gain_loss (h : StockHolding) : Option ℚ :=
  match h.current_price, h.cost_basis with
  | some p, some cb => if p ≠ 0 ∧ cb ≠ 0 then some ((p - cb) * h.shares) else none
  | _, _ => none

/-- models.py StockHolding.gain_loss_percent: guarded by
`if self.current_price and self.cost_basis and self.cost_basis > 0:`. -/
def StockHolding.gain_loss_percent (h : StockHolding) : Option ℚ :=
  match h.current_price, h.cost_basis with
  | some p, some cb =>
      if p ≠ 0 ∧ cb ≠ 0 ∧ 0 < cb then some ((p - cb) / cb * 100) else none
  | _, _ => none

/-- A portfolio from models.py (Portfolio): a name and an ordered list of
holdings. -/
structure Portfolio where
  name : String := "My Portfolio"
  holdings : List StockHolding := []
  deriving Repr

/-- models.py Portfolio.total_value:
`sum((h.current_value or Decimal("0") for h in self.holdings), Decimal("0"))`.
`x or 0` on an optional Decimal yields 0 both for None and for a falsy
(zero) value, which `Option.getD 0` captures (a present value can only be
`some 0` when it equals 0 anyway). -/
def Portfolio.total_value (pf : Portfolio) : ℚ :=
  (pf.holdings.map (fun h => h.current_value.getD 0)).sum

/-- Insertion into a Python dict built by a comprehension: a repeated key
overwrites the stored value in place, a new key is appended (Python dicts
preserve insertion order). -/
def dictInsert (m : List (String × ℚ)) (k : String) (v : ℚ) : List (String × ℚ) :=
  if m.any (fun kv => kv.1 == k) then
    m.map (fun kv => if kv.1 == k then (k, v) else kv)
  else
    m ++ [(k, v)]

/-- models.py Portfolio.get_allocation:
`if self.total_value == 0: return {}` then a dict comprehension
`{h.symbol: float((h.current_value or 0) / self.total_value * 100) for h in holdings}`.
The result dict is modelled as an ordered association list with
last-write-wins on duplicate symbols, exactly like a Python dict
comprehension. -/
def Portfolio.get_allocation (pf : Portfolio) : List (String × ℚ) :=
  if pf.total_value = 0 then []
  else
    pf.holdings.foldl
      (fun m h => dictInsert m h.symbol (h.current_value.getD 0 / pf.total_value * 100))
      []

/-- The quote-provider result consumed by stock_fetcher.py enrich_holding:
the `info` mapping with each relevant key optional (`info.get` returns None
or a default when the key is missing). -/
structure QuoteInfo where
  currentPrice : Option ℚ := none
  regularMarketPrice : Option ℚ := none
  longName : Option String := none
  shortName : Option String := none
  sector : Option String := none
  industry : Option String := none
  marketCap : Option ℚ := none
  trailingPE : Option ℚ := none
  dividendYield : Option ℚ := none
  fiftyTwoWeekHigh : Option ℚ := none
  fiftyTwoWeekLow : Option ℚ := none
  deriving DecidableEq, Repr

/-- Python `a or b` on numbers: `a` when `a` is truthy (nonzero), else `b`. -/
def pyNumOr (a b : ℚ) : ℚ := if a ≠ 0 then a else b

/-- Python truthiness of an optional string: None and "" are falsy. -/
def strTruthy (s : Option String) : Bool :=
  match s with
  | none => false
  | some v => v ≠ ""

/-- stock_fetcher.py StockDataFetcher.enrich_holding, the field-update block
(the surrounding try/except and the cache/network fetch are external):

  holding.current_price = Decimal(str(info.get("currentPrice", 0) or
                                      info.get("regularMarketPrice", 0)))
  holding.company_name = info.get("longName") or info.get("shortName")
  holding.sector = info.get("sector")
  holding.industry = info.get("industry")
  holding.market_cap = Decimal(...) if info.get("marketCap") else None
  holding.pe_field = info.get("trailingPE")
  holding.dividend_yield = info.get("dividendYield")
  holding.fifty_two_week_high = Decimal(...) if info.get("fiftyTwoWeekHigh") else None
  holding.fifty_two_week_low = Decimal(...) if info.get("fiftyTwoWeekLow") else None

Note that the current_price assignment always stores a number: a missing
price falls through the defaults to Decimal("0"). -/
def enrich_holding (h : StockHolding) (info : QuoteInfo) : StockHolding :=
  { h with
    current_price :=
      some (pyNumOr (info.currentPrice.getD 0) (info.regularMarketPrice.getD 0)),
    company_name := if strTruthy info.longName then info.longName else info.shortName,
    sector := info.sector,
    industry := info.industry,
    market_cap :=
      match info.marketCap with
      | some v => if v ≠ 0 then some v else none
      | none => none,
    pe := info.trailingPE,
    dividend_yield := info.dividendYield,
    fifty_two_week_high :=
      match info.fiftyTwoWeekHigh with
      | some v => if v ≠ 0 then some v else none
      | none => none,
    fifty_two_week_low :=
      match info.fiftyTwoWeekLow with
      | some v => if v ≠ 0 then some v else none
      | none => none }

/-- Pandas `series.iloc[-k]` on a list of length L: the element at position
L - k (0 when out of range; every use below is guarded by a length check). -/
def ilocNeg (ps : List ℚ) (k : Nat) : ℚ := ps.getD (ps.length - k) 0

/-- analyze_stock: `if len(close_prices) >= 2:` then
`(close_prices.iloc[-1] - close_prices.iloc[-2]) / close_prices.iloc[-2] * 100`. -/
def price_change_1d (ps : List ℚ) : Option ℚ :=
  if 2 ≤ ps.length then
    some ((ilocNeg ps 1 - ilocNeg ps 2) / ilocNeg ps 2 * 100)
  else none

/-- analyze_stock: `if len(close_prices) >= 7:` then
`(close_prices.iloc[-1] - close_prices.iloc[-7]) / close_prices.iloc[-7] * 100`. -/
def price_change_7d (ps : List ℚ) : Option ℚ :=
  if 7 ≤ ps.length then
    some ((ilocNeg ps 1 - ilocNeg ps 7) / ilocNeg ps 7 * 100)
  else none

/-- analyze_stock: `if len(close_prices) >= 30:` then
`(close_prices.iloc[-1] - close_prices.iloc[-30]) / close_prices.iloc[-30] * 100`. -/
def price_change_30d (ps : List ℚ) : Option ℚ :=
  if 30 ≤ ps.length then
    some ((ilocNeg ps 1 - ilocNeg ps 30) / ilocNeg ps 30 * 100)
  else none

/-- Pandas `series.pct_change().dropna()`: the day-over-day fractional
returns (p[i] - p[i-1]) / p[i-1] for i = 1..L-1 (the NaN first entry is
dropped). -/
def pctReturns (ps : List ℚ) : List ℚ :=
  (ps.zip ps.tail).map (fun q => (q.2 - q.1) / q.1)

/-- Pandas `series.tail(n)`: the last n elements (all of them when the
series is shorter). -/
def tailN (n : Nat) (l : List ℚ) : List ℚ := l.drop (l.length - n)

/-- Pandas `series.std()`: sample standard deviation squared, i.e. the
sample variance with denominator L - 1.  The guard L ≤ 1 (where pandas
yields NaN) never fires in the guarded call of the source, which always
passes at least 29 returns. -/
def sampleVar (xs : List ℚ) : ℚ :=
  if xs.length ≤ 1 then 0
  else (xs.map (fun x => (x - xs.sum / (xs.length : ℚ)) ^ 2)).sum / ((xs.length : ℚ) - 1)

/-- analyze_stock: inside `if len(close_prices) >= 30:`,
`returns = close_prices.pct_change().dropna()` and
`volatility_30d = float(returns.tail(30).std() * (252**0.5) * 100)`.
The stored value here is the sample variance of the trailing 30 returns;
the reported volatility is `Real.sqrt` of it times `Real.sqrt 252 * 100`,
which the theorems state explicitly (the square root is irrational, so the
executable embedding carries the variance). -/
def vol30Var (ps : List ℚ) : Option ℚ :=
  if 30 ≤ ps.length then some (sampleVar (tailN 30 (pctReturns ps))) else none

/-- Pandas `prices.diff()` without its leading NaN: the day-over-day deltas
p[i] - p[i-1].  In `_calculate_rsi` the leading NaN is coerced to 0 by
`delta.where(...)` and contributes nothing to either the gain or the loss
rolling sums, so dropping it is exact for every series long enough for the
trailing rolling window to be defined. -/
def deltas (ps : List ℚ) : List ℚ :=
  (ps.zip ps.tail).map (fun q => q.2 - q.1)

/-- Source _calculate_rsi: `gain = (delta.where(delta > 0, 0)).rolling(period).mean()`
evaluated at the last position: the mean of the positive parts of the last
`period` deltas. -/
def rsiGain (ps : List ℚ) (period : Nat) : ℚ :=
  ((tailN period (deltas ps)).map (fun d => max d 0)).sum / (period : ℚ)

/-- Source _calculate_rsi: `loss = (-delta.where(delta < 0, 0)).rolling(period).mean()`
evaluated at the last position: the mean of the magnitudes of the negative
parts of the last `period` deltas. -/
def rsiLoss (ps : List ℚ) (period : Nat) : ℚ :=
  ((tailN period (deltas ps)).map (fun d => max (-d) 0)).sum / (period : ℚ)

/-- stock_fetcher.py StockDataFetcher._calculate_rsi:
`rs = gain / loss; rsi = 100 - (100 / (1 + rs)); return float(rsi.iloc[-1])`,
under IEEE-754 semantics:
  - fewer than `period` rows leave the rolling mean NaN at the last
    position (modelled `none`);
  - loss = 0 with gain > 0 gives rs = +inf and rsi = 100 - 100/inf = 100;
  - loss = 0 with gain = 0 gives rs = 0/0 = NaN and rsi = NaN (modelled
    `none`);
  - otherwise the arithmetic is the exact rational formula. -/
def rsi (ps : List ℚ) (period : Nat) : Option ℚ :=
  if ps.length < period then none
  else if rsiLoss ps period = 0 then
    if 0 < rsiGain ps period then some 100 else none
  else some (100 - 100 / (1 + rsiGain ps period / rsiLoss ps period))

/-- The inputs read by stock_fetcher.py _assess_risk from a StockAnalysis:
each may be undefined (None); rsi_14 and volatility_30d may also hold the
float NaN in the source, which triggers none of the threshold comparisons,
exactly like `none` here. -/
structure AnalysisIn where
  volatility_30d : Option ℚ
  rsi_14 : Option ℚ
  above_200_ma : Option Bool
  price_change_30d : Option ℚ
  deriving DecidableEq, Repr

/-- The risk factor strings appended by _assess_risk, in tag form carrying
the numeric value interpolated into the source's f-string. -/
inductive RiskFactor where
  | highVol (v : ℚ)
  | modVol (v : ℚ)
  | overbought (r : ℚ)
  | oversold (r : ℚ)
  | below200MA
  | decline30d (c : ℚ)
  deriving DecidableEq, Repr

/-- Volatility rule of _assess_risk: `if analysis.volatility_30d:` (truthy:
not None and not 0.0) then `if > 50: +2 elif > 30: +1`. -/
def volStep (v? : Option ℚ) : Nat × List RiskFactor :=
  match v? with
  | none => (0, [])
  | some v =>
    if v ≠ 0 then
      if 50 < v then (2, [RiskFactor.highVol v])
      else if 30 < v then (1, [RiskFactor.modVol v])
      else (0, [])
    else (0, [])

/-- RSI rule of _assess_risk: `if analysis.rsi_14:` (truthy: not None and not
0.0) then `if > 70: +1 "Overbought" elif < 30: +1 "Oversold"`.  An RSI of
exactly 0.0 is falsy in Python and skips the whole rule. -/
def rsiStep (r? : Option ℚ) : Nat × List RiskFactor :=
  match r? with
  | none => (0, [])
  | some r =>
    if r ≠ 0 then
      if 70 < r then (1, [RiskFactor.overbought r])
      else if r < 30 then (1, [RiskFactor.oversold r])
      else (0, [])
    else (0, [])

/-- Trend rule of _assess_risk: `if analysis.above_200_ma is False:` — only an
explicit False (not None) triggers. -/
def trendStep (m? : Option Bool) : Nat × List RiskFactor :=
  match m? with
  | some false => (1, [RiskFactor.below200MA])
  | _ => (0, [])

/-- Decline rule of _assess_risk:
`if analysis.price_change_30d and analysis.price_change_30d < -10:`. -/
def declineStep (c? : Option ℚ) : Nat × List RiskFactor :=
  match c? with
  | none => (0, [])
  | some c => if c ≠ 0 ∧ c < -10 then (1, [RiskFactor.decline30d c]) else (0, [])

/-- Rule accumulation of _assess_risk: risk_score starts at 0 and the four
rules fire in source order, each adding its increment and appending its
factor string. -/
def assessRiskScore (a : AnalysisIn) : Nat × List RiskFactor :=
  ((volStep a.volatility_30d).1 + (rsiStep a.rsi_14).1
      + (trendStep a.above_200_ma).1 + (declineStep a.price_change_30d).1,
   (volStep a.volatility_30d).2 ++ (rsiStep a.rsi_14).2
      ++ (trendStep a.above_200_ma).2 ++ (declineStep a.price_change_30d).2)

/-- Final mapping of _assess_risk: `if risk_score >= 4: VERY_HIGH elif >= 3:
HIGH elif >= 2: MEDIUM else LOW`. -/
def scoreToLevel (s : Nat) : RiskLevel :=
  if 4 ≤ s then RiskLevel.VERY_HIGH
  else if 3 ≤ s then RiskLevel.HIGH
  else if 2 ≤ s then RiskLevel.MEDIUM
  else RiskLevel.LOW

/-- stock_fetcher.py StockDataFetcher._assess_risk: the (risk_level,
risk_factors) pair returned to analyze_stock. -/
def assessRisk (a : AnalysisIn) : RiskLevel × List RiskFactor :=
  (scoreToLevel (assessRiskScore a).1, (assessRiskScore a).2)

/-- A holding with one share, a symbol and an optional current price, all
other fields at their model defaults; used to build concrete portfolios. -/
def mkH (sym : String) (price : Option ℚ) : StockHolding :=
  ⟨sym, 1, none, price, none, none, none, none, none, none, none, none⟩


/-- A sum of nonnegative rationals is zero only if every summand is zero. -/
theorem eq_zero_of_sum_eq_zero {l : List ℚ} (hn : ∀ x ∈ l, 0 ≤ x)
    (h0 : l.sum = 0) : ∀ x ∈ l, x = 0 := by
  induction l with
  | nil => intro x hx; cases hx
  | cons a t ih =>
    have hta : 0 ≤ a := hn a (by simp)
    have htt : 0 ≤ t.sum := List.sum_nonneg (fun x hx => hn x (by simp [hx]))
    have hs : a + t.sum = 0 := by simpa using h0
    have ha : a = 0 := by linarith
    have ht : t.sum = 0 := by linarith
    intro x hx
    rcases List.mem_cons.mp hx with rfl | hx2
    · exact ha
    · exact ih (fun y hy => hn y (by simp [hy])) ht x hx2

/-- The sample variance computed by the embedding is nonnegative. -/
theorem sampleVar_nonneg (xs : List ℚ) : 0 ≤ sampleVar xs := by
  unfold sampleVar
  split_ifs with h
  · exact le_refl 0
  · apply div_nonneg
    · apply List.sum_nonneg
      intro x hx
      simp only [List.mem_map] at hx
      obtain ⟨y, _, rfl⟩ := hx
      positivity
    · have h2 : 2 ≤ xs.length := by omega
      have h2q : (2 : ℚ) ≤ (xs.length : ℚ) := by exact_mod_cast h2
      linarith

/-- Inserting a key not present in the association list appends it. -/
theorem dictInsert_of_not_mem (m : List (String × ℚ)) (k : String) (v : ℚ)
    (hk : ∀ kv ∈ m, kv.1 ≠ k) : dictInsert m k v = m ++ [(k, v)] := by
  have h : m.any (fun kv => kv.1 == k) = false := by
    rw [List.any_eq_false]
    intro kv hkv
    simpa using hk kv hkv
  simp [dictInsert, h]

/-- Building the allocation dict over holdings with pairwise-distinct
symbols never overwrites, so the dict is the in-order list of
(symbol, value) pairs. -/
theorem foldl_dictInsert_eq (f : StockHolding → ℚ) :
    ∀ (hs : List StockHolding) (acc : List (String × ℚ)),
      (hs.map StockHolding.symbol).Nodup →
      (∀ h ∈ hs, ∀ kv ∈ acc, kv.1 ≠ h.symbol) →
      hs.foldl (fun m h => dictInsert m h.symbol (f h)) acc
        = acc ++ hs.map (fun h => (h.symbol, f h)) := by
  intro hs
  induction hs with
  | nil => intro acc _ _; simp
  | cons h t ih =>
    intro acc hnd hdisj
    have hnd2 : (t.map StockHolding.symbol).Nodup :=
      (List.nodup_cons.mp (by simpa using hnd)).2
    have hnotmem : h.symbol ∉ t.map StockHolding.symbol :=
      (List.nodup_cons.mp (by simpa using hnd)).1
    have hstep := ih (acc ++ [(h.symbol, f h)]) hnd2 (by
      intro h2 h2mem kv hkv
      rcases List.mem_append.mp hkv with hin | hin
      · exact hdisj h2 (List.mem_cons_of_mem _ h2mem) kv hin
      · have hkveq : kv = (h.symbol, f h) := by simpa using hin
        subst hkveq
        intro hc
        have hc2 : h.symbol = h2.symbol := hc
        exact hnotmem (by rw [hc2]; exact List.mem_map_of_mem _ h2mem))
    simp only [List.foldl_cons]
    rw [dictInsert_of_not_mem _ _ _ (fun kv hkv => hdisj h (List.mem_cons_self h t) kv hkv),
      hstep]
    simp

/-- Multiplying every summand by a constant scales a list sum. -/
theorem sum_map_mul_const (l : List StockHolding) (f : StockHolding → ℚ) (c : ℚ) :
    (l.map (fun x => f x * c)).sum = (l.map f).sum * c := by
  induction l with
  | nil => simp
  | cons a t ih => simp [ih, add_mul]

/-- Claim C1 (code bug, evaluation at the failing input): on the 8-point
series [100, 102, 101, 105, 98, 97, 103, 106] the source computes
price_change_7d from `iloc[-7]`, the price only 6 positions back, giving
(106 - 102)/102*100 = 200/51 (about 3.92), not the claimed 6.0; and it
already defines the value on the 7-point prefix, where the claim requires
at least 8 points. price_change_1d does match the claimed
(106 - 103)/103*100. -/
theorem price_change_7d_code_eval :
    price_change_7d [100, 102, 101, 105, 98, 97, 103, 106] = some (200 / 51) ∧
    (200 / 51 : ℚ) ≠ 6 ∧
    price_change_7d [100, 102, 101, 105, 98, 97, 103] = some 3 ∧
    price_change_1d [100, 102, 101, 105, 98, 97, 103, 106] = some (300 / 103) := by
  refine ⟨?_, by norm_num, ?_, ?_⟩ <;> norm_num [price_change_7d, price_change_1d, ilocNeg]

/-- Claim C2 (counterexample to the stated threshold): the 30-day
volatility is already defined for a series of exactly 30 points (the source
guard is `len(close_prices) >= 30`), while the claim says every series with
fewer than 31 points leaves it undefined. -/
theorem vol30_defined_at_30_points :
    (List.replicate 30 (1 : ℚ)).length = 30 ∧
    vol30Var (List.replicate 30 (1 : ℚ)) ≠ none := by
  constructor
  · decide
  · unfold vol30Var
    rw [if_pos (by norm_num)]
    simp

/-- Claim C2 (amended): the 30-day annualized volatility is undefined for
fewer than 30 price points (the source guard, not the claimed 31), and for
every positive series of at least 30 points it is defined with a
nonnegative variance, so the reported volatility
sqrt(variance) * sqrt(252) * 100 is nonnegative. -/
theorem vol30_amended (ps : List ℚ) :
    (ps.length < 30 → vol30Var ps = none) ∧
    (30 ≤ ps.length → (∀ p ∈ ps, 0 < p) →
      ∃ v, vol30Var ps = some v ∧ 0 ≤ v ∧
        (0 : ℝ) ≤ Real.sqrt (v : ℝ) * Real.sqrt 252 * 100) := by
  constructor
  · intro h
    unfold vol30Var
    rw [if_neg (by omega)]
  · intro h _
    refine ⟨sampleVar (tailN 30 (pctReturns ps)), by unfold vol30Var; rw [if_pos h],
      sampleVar_nonneg _, ?_⟩
    have h1 := Real.sqrt_nonneg ((sampleVar (tailN 30 (pctReturns ps)) : ℚ) : ℝ)
    have h2 := Real.sqrt_nonneg (252 : ℝ)
    positivity

/-- Witness for the amended C2 theorem at a concrete 31-point positive
series. -/
theorem vol30_amended_witness :
    ∃ v, vol30Var (List.replicate 31 (2 : ℚ)) = some v ∧ 0 ≤ v ∧
      (0 : ℝ) ≤ Real.sqrt (v : ℝ) * Real.sqrt 252 * 100 :=
  (vol30_amended (List.replicate 31 (2 : ℚ))).2 (by norm_num)
    (by intro p hp; rw [List.eq_of_mem_replicate hp]; norm_num)

/-- Claim C3 (code bug, evaluation at the failing input): for the flat
15-point series (every price 100) the trailing 14-delta window has average
loss exactly zero, yet the source computes rs = 0/0 = NaN and returns a NaN
RSI (modelled `none`) instead of the claimed 100. -/
theorem rsi_flat_window_nan :
    (List.replicate 15 (100 : ℚ)).length = 15 ∧
    rsiLoss (List.replicate 15 (100 : ℚ)) 14 = 0 ∧
    rsi (List.replicate 15 (100 : ℚ)) 14 = none := by
  refine ⟨by decide, ?_, ?_⟩
  · norm_num [rsiLoss, deltas, tailN, List.replicate]
  · norm_num [rsi, rsiGain, rsiLoss, deltas, tailN, List.replicate]

/-- Claim C4: the risk classifier maps its accumulated score to exactly the
claimed levels (score at least 4 gives VERY_HIGH, 3 gives HIGH, 2 gives
MEDIUM, 0 or 1 gives LOW), is total and deterministic on every combination
of possibly-undefined inputs, and on the scenario (volatility 55, RSI 75,
above_200_ma false, 30-day change -15) accumulates score 5 with exactly the
four factors in rule order and returns VERY_HIGH. -/
theorem assess_risk_mapping :
    (∀ a : AnalysisIn,
      (4 ≤ (assessRiskScore a).1 → (assessRisk a).1 = RiskLevel.VERY_HIGH) ∧
      ((assessRiskScore a).1 = 3 → (assessRisk a).1 = RiskLevel.HIGH) ∧
      ((assessRiskScore a).1 = 2 → (assessRisk a).1 = RiskLevel.MEDIUM) ∧
      ((assessRiskScore a).1 ≤ 1 → (assessRisk a).1 = RiskLevel.LOW) ∧
      (assessRisk a).2 = (assessRiskScore a).2 ∧
      (∃! lvl : RiskLevel, (assessRisk a).1 = lvl)) ∧
    assessRiskScore ⟨some 55, some 75, some false, some (-15)⟩ =
      (5, [RiskFactor.highVol 55, RiskFactor.overbought 75,
           RiskFactor.below200MA, RiskFactor.decline30d (-15)]) ∧
    (assessRisk ⟨some 55, some 75, some false, some (-15)⟩).1 = RiskLevel.VERY_HIGH := by
  refine ⟨fun a => ⟨?_, ?_, ?_, ?_, rfl, ?_⟩, ?_, ?_⟩
  · intro h
    unfold assessRisk scoreToLevel
    rw [if_pos h]
  · intro h
    unfold assessRisk scoreToLevel
    rw [if_neg (by omega), if_pos (by omega)]
  · intro h
    unfold assessRisk scoreToLevel
    rw [if_neg (by omega), if_neg (by omega), if_pos (by omega)]
  · intro h
    unfold assessRisk scoreToLevel
    rw [if_neg (by omega), if_neg (by omega), if_neg (by omega)]
  · exact ⟨(assessRisk a).1, rfl, fun y hy => hy.symm⟩
  · norm_num [assessRiskScore, volStep, rsiStep, trendStep, declineStep]
  · norm_num [assessRisk, assessRiskScore, volStep, rsiStep, trendStep, declineStep,
      scoreToLevel]

/-- Witness for the C4 theorem: the mapping applied at the scenario input,
whose score 5 is at least 4, yields VERY_HIGH. -/
theorem assess_risk_mapping_witness :
    (assessRisk ⟨some 55, some 75, some false, some (-15)⟩).1 = RiskLevel.VERY_HIGH :=
  (assess_risk_mapping.1 ⟨some 55, some 75, some false, some (-15)⟩).1
    (by norm_num [assessRiskScore, volStep, rsiStep, trendStep, declineStep])

/-- Claim C5 (code bug, evaluation at the failing input): an analysis whose
RSI is defined and exactly 0 is skipped by the truthiness guard
`if analysis.rsi_14:` in the source, so it contributes no score and no
"Oversold" factor, although the claim (and the spec rule RSI < 30) requires
+1 with the Oversold factor; a nearby defined RSI of 1 does trigger the
rule. -/
theorem rsi_zero_skips_oversold :
    assessRiskScore ⟨none, some 0, none, none⟩ = (0, []) ∧
    rsiStep (some 0) = (0, []) ∧
    rsiStep (some 1) = (1, [RiskFactor.oversold 1]) := by
  refine ⟨?_, ?_, ?_⟩ <;>
    norm_num [assessRiskScore, volStep, rsiStep, trendStep, declineStep]

/-- Claim C6 (counterexample): a portfolio with two holdings sharing the
symbol "A" (values 1000 and 1000) and one holding "B" (value 2000) has
total_value 4000 > 0, but the allocation dict collapses the duplicate
symbol, so its values are 25 and 50 and sum to 75, not 100. -/
theorem allocation_sum_duplicate_symbols :
    0 < (Portfolio.mk "P" [mkH "A" (some 1000), mkH "A" (some 1000),
          mkH "B" (some 2000)]).total_value ∧
    (((Portfolio.mk "P" [mkH "A" (some 1000), mkH "A" (some 1000),
          mkH "B" (some 2000)]).get_allocation).map Prod.snd).sum ≠ 100 := by
  constructor
  · norm_num [Portfolio.total_value, mkH, StockHolding.current_value]
  · norm_num +decide [Portfolio.get_allocation, Portfolio.total_value, mkH,
      StockHolding.current_value, dictInsert]

/-- Claim C6 (amended): for every portfolio whose holdings carry
pairwise-distinct symbols, the allocation percentages sum to exactly 100
whenever total_value > 0; and for every portfolio with total_value = 0 the
allocation is the empty mapping. -/
theorem allocation_sum_nodup (pf : Portfolio) :
    ((pf.holdings.map StockHolding.symbol).Nodup → 0 < pf.total_value →
      ((pf.get_allocation).map Prod.snd).sum = 100) ∧
    (pf.total_value = 0 → pf.get_allocation = []) := by
  constructor
  · intro hnd hpos
    unfold Portfolio.get_allocation
    rw [if_neg (ne_of_gt hpos)]
    rw [foldl_dictInsert_eq _ pf.holdings [] hnd (by intro h hm kv hkv; cases hkv)]
    simp only [List.nil_append, List.map_map]
    have hcomp :
        (Prod.snd ∘ fun h : StockHolding =>
            (h.symbol, h.current_value.getD 0 / pf.total_value * 100))
          = fun h : StockHolding => h.current_value.getD 0 / pf.total_value * 100 := rfl
    rw [hcomp]
    have hrw : (fun h : StockHolding => h.current_value.getD 0 / pf.total_value * 100)
        = fun h : StockHolding => h.current_value.getD 0 * (100 / pf.total_value) := by
      funext h
      ring
    rw [hrw,
      sum_map_mul_const pf.holdings (fun h => h.current_value.getD 0) (100 / pf.total_value)]
    have hT : (pf.holdings.map (fun h => h.current_value.getD 0)).sum = pf.total_value := rfl
    rw [hT, mul_comm]
    exact div_mul_cancel₀ 100 (ne_of_gt hpos)
  · intro h0
    unfold Portfolio.get_allocation
    rw [if_pos h0]

/-- Witness for the amended C6 theorem on a concrete two-holding portfolio
with distinct symbols and values 1000 and 3000: the allocations 25 and 75
sum to 100. -/
theorem allocation_sum_nodup_witness :
    (((Portfolio.mk "P" [mkH "A" (some 1000), mkH "B" (some 3000)]).get_allocation).map
      Prod.snd).sum = 100 :=
  (allocation_sum_nodup _).1 (by decide)
    (by norm_num [Portfolio.total_value, mkH, StockHolding.current_value])

/-- Claim C7: for every series of at least 15 points whose trailing
14-delta window is non-degenerate (some delta nonzero), the 14-day RSI is
defined and lies in the closed interval [0, 100]. -/
theorem rsi_bounded (ps : List ℚ) (hlen : 15 ≤ ps.length)
    (hnd : ∃ d ∈ tailN 14 (deltas ps), d ≠ 0) :
    ∃ r, rsi ps 14 = some r ∧ 0 ≤ r ∧ r ≤ 100 := by
  have hmax : ∀ x ∈ (tailN 14 (deltas ps)).map (fun d => max d 0), 0 ≤ x := by
    intro x hx
    simp only [List.mem_map] at hx
    obtain ⟨d, _, rfl⟩ := hx
    exact le_max_right d 0
  have hmaxneg : ∀ x ∈ (tailN 14 (deltas ps)).map (fun d => max (-d) 0), 0 ≤ x := by
    intro x hx
    simp only [List.mem_map] at hx
    obtain ⟨d, _, rfl⟩ := hx
    exact le_max_right _ 0
  have hgain : 0 ≤ rsiGain ps 14 := by
    unfold rsiGain
    exact div_nonneg (List.sum_nonneg hmax) (by norm_num)
  have hlossn : 0 ≤ rsiLoss ps 14 := by
    unfold rsiLoss
    exact div_nonneg (List.sum_nonneg hmaxneg) (by norm_num)
  unfold rsi
  rw [if_neg (by omega)]
  by_cases hl : rsiLoss ps 14 = 0
  · rw [if_pos hl]
    obtain ⟨d0, hd0mem, hd0⟩ := hnd
    have hsum : ((tailN 14 (deltas ps)).map (fun d => max (-d) 0)).sum = 0 := by
      unfold rsiLoss at hl
      rcases div_eq_zero_iff.mp hl with h | h
      · exact h
      · norm_num at h
    have hall := eq_zero_of_sum_eq_zero hmaxneg hsum
    have hd0pos : 0 < d0 := by
      have hm := hall (max (-d0) 0) (List.mem_map_of_mem _ hd0mem)
      have hneg : -d0 ≤ 0 := by
        rcases le_or_lt (-d0) 0 with h | h
        · exact h
        · exfalso
          rw [max_eq_left h.le] at hm
          linarith
      have hge : 0 ≤ d0 := by linarith
      exact lt_of_le_of_ne hge (Ne.symm hd0)
    have hgpos : 0 < rsiGain ps 14 := by
      unfold rsiGain
      apply div_pos _ (by norm_num)
      have hle : max d0 0 ≤ ((tailN 14 (deltas ps)).map (fun d => max d 0)).sum :=
        List.single_le_sum hmax _ (List.mem_map_of_mem _ hd0mem)
      have hmpos : 0 < max d0 0 := lt_max_iff.mpr (Or.inl hd0pos)
      linarith
    rw [if_pos hgpos]
    exact ⟨100, rfl, by norm_num, le_refl 100⟩
  · rw [if_neg hl]
    have hlpos : 0 < rsiLoss ps 14 := lt_of_le_of_ne hlossn (Ne.symm hl)
    have hrs0 : 0 ≤ rsiGain ps 14 / rsiLoss ps 14 := div_nonneg hgain hlossn
    have h1 : (1 : ℚ) ≤ 1 + rsiGain ps 14 / rsiLoss ps 14 := by linarith
    have h2 : 100 / (1 + rsiGain ps 14 / rsiLoss ps 14) ≤ 100 :=
      div_le_self (by norm_num) h1
    have h3 : 0 ≤ 100 / (1 + rsiGain ps 14 / rsiLoss ps 14) :=
      div_nonneg (by norm_num) (by linarith)
    exact ⟨_, rfl, by linarith, by linarith⟩

/-- Witness for the C7 theorem on the strictly increasing 15-point series
1..15, whose RSI is defined and within bounds. -/
theorem rsi_bounded_witness :
    ∃ r, rsi [(1 : ℚ), 2, 3, 4, 5, 6, 7, 8, 9, 10, 11, 12, 13, 14, 15] 14 = some r ∧
      0 ≤ r ∧ r ≤ 100 :=
  rsi_bounded [(1 : ℚ), 2, 3, 4, 5, 6, 7, 8, 9, 10, 11, 12, 13, 14, 15] (by norm_num)
    ⟨1, by norm_num [tailN, deltas], by norm_num⟩

/-- Claim C8 (counterexample): a holding with shares 10, cost basis 100 and
a present current price of exactly 0 has all three derived fields None,
while the claim's formulas predict current_value = 0,
total_gain_loss = -1000 and gain_loss_percent = -100: the truthiness guards
of the source treat a zero price like an absent one. -/
theorem holding_zero_price_eval :
    (⟨"T", 10, some 100, some 0, none, none, none, none, none, none, none,
        none⟩ : StockHolding).current_value = none ∧
    (⟨"T", 10, some 100, some 0, none, none, none, none, none, none, none,
        none⟩ : StockHolding).total_gain_loss = none ∧
    (⟨"T", 10, some 100, some 0, none, none, none, none, none, none, none,
        none⟩ : StockHolding).gain_loss_percent = none := by
  refine ⟨?_, ?_, ?_⟩ <;>
    norm_num [StockHolding.current_value, StockHolding.total_gain_loss,
      StockHolding.gain_loss_percent]

/-- Claim C8 (amended): the derived holding fields follow the claimed
formulas whenever the fields they read are present and nonzero, and are
undefined when a required field is absent, zero (truthiness), or — for the
percentage — when the cost basis is not positive; the claimed scenario
(shares 10, cost basis 100, price 150) gives 1500, 500 and 50. -/
theorem holding_derived_fields :
    (∀ (h : StockHolding) (p cb : ℚ),
      (h.current_price = some p → p ≠ 0 → h.current_value = some (h.shares * p)) ∧
      ((h.current_price = none ∨ h.current_price = some 0) → h.current_value = none) ∧
      (h.current_price = some p → h.cost_basis = some cb → p ≠ 0 → cb ≠ 0 →
        h.total_gain_loss = some ((p - cb) * h.shares)) ∧
      ((h.current_price = none ∨ h.current_price = some 0 ∨ h.cost_basis = none ∨
          h.cost_basis = some 0) → h.total_gain_loss = none) ∧
      (h.current_price = some p → h.cost_basis = some cb → p ≠ 0 → 0 < cb →
        h.gain_loss_percent = some ((p - cb) / cb * 100)) ∧
      ((h.cost_basis = none ∨ (h.cost_basis = some cb ∧ cb ≤ 0) ∨ h.current_price = none ∨
          h.current_price = some 0) → h.gain_loss_percent = none)) ∧
    ((⟨"T", 10, some 100, some 150, none, none, none, none, none, none, none,
        none⟩ : StockHolding).current_value = some 1500 ∧
     (⟨"T", 10, some 100, some 150, none, none, none, none, none, none, none,
        none⟩ : StockHolding).total_gain_loss = some 500 ∧
     (⟨"T", 10, some 100, some 150, none, none, none, none, none, none, none,
        none⟩ : StockHolding).gain_loss_percent = some 50) := by
  constructor
  · intro h p cb
    refine ⟨?_, ?_, ?_, ?_, ?_, ?_⟩
    · intro hp hp0
      simp [StockHolding.current_value, hp, hp0]
    · rintro (hp | hp) <;> simp [StockHolding.current_value, hp]
    · intro hp hcb hp0 hcb0
      simp [StockHolding.total_gain_loss, hp, hcb, hp0, hcb0]
    · rintro (hp | hp | hcb | hcb)
      · rcases hc : h.cost_basis with _ | cb2 <;>
          simp [StockHolding.total_gain_loss, hp, hc]
      · rcases hc : h.cost_basis with _ | cb2 <;>
          simp [StockHolding.total_gain_loss, hp, hc]
      · rcases hc : h.current_price with _ | p2 <;>
          simp [StockHolding.total_gain_loss, hcb, hc]
      · rcases hc : h.current_price with _ | p2 <;>
          simp [StockHolding.total_gain_loss, hcb, hc]
    · intro hp hcb hp0 hcbpos
      simp [StockHolding.gain_loss_percent, hp, hcb, hp0, ne_of_gt hcbpos, hcbpos]
    · rintro (hcb | hcb | hp | hp)
      · rcases hc : h.current_price with _ | p2 <;>
          simp [StockHolding.gain_loss_percent, hcb, hc]
      · rcases hc : h.current_price with _ | p2
        · simp [StockHolding.gain_loss_percent, hc]
        · have hnot : ¬ (p2 ≠ 0 ∧ cb ≠ 0 ∧ 0 < cb) := by
            rintro ⟨-, -, hlt⟩
            exact absurd hlt (not_lt.mpr hcb.2)
          simp only [StockHolding.gain_loss_percent, hc, hcb.1]
          rw [if_neg hnot]
      · rcases hc : h.cost_basis with _ | cb2 <;>
          simp [StockHolding.gain_loss_percent, hp, hc]
      · rcases hc : h.cost_basis with _ | cb2 <;>
          simp [StockHolding.gain_loss_percent, hp, hc]
  · refine ⟨?_, ?_, ?_⟩ <;>
      norm_num [StockHolding.current_value, StockHolding.total_gain_loss,
        StockHolding.gain_loss_percent]

/-- Witness for the amended C8 theorem: the formula applied at the
scenario holding (shares 10, cost basis 100, price 150) yields the
percentage (150 - 100)/100*100. -/
theorem holding_derived_fields_witness :
    (⟨"T2", 10, some 100, some 150, none, none, none, none, none, none, none,
        none⟩ : StockHolding).gain_loss_percent = some ((150 - 100) / 100 * 100) :=
  (holding_derived_fields.1
      ⟨"T2", 10, some 100, some 150, none, none, none, none, none, none, none, none⟩
      150 100).2.2.2.2.1 rfl rfl (by norm_num) (by norm_num)

/-- Claim C9 (counterexample): enriching a holding from a quote result with
no price fields stores Decimal("0") into current_price — a defined
placeholder, not None — while the other missing fields are left None. -/
theorem enrich_missing_price_writes_zero :
    (enrich_holding (mkH "AAPL" none)
      ⟨none, none, none, none, none, none, none, none, none, none,
        none⟩).current_price = some 0 ∧
    (enrich_holding (mkH "AAPL" none)
      ⟨none, none, none, none, none, none, none, none, none, none,
        none⟩).company_name = none := by
  constructor <;> norm_num [enrich_holding, mkH, pyNumOr, strTruthy]

/-- Claim C9 (amended): for every enrichment input, a missing price (both
price keys absent) writes the placeholder 0 into current_price, and every
other missing field leaves the corresponding holding field None. -/
theorem enrich_missing_fields (h : StockHolding) (info : QuoteInfo) :
    (info.currentPrice = none → info.regularMarketPrice = none →
      (enrich_holding h info).current_price = some 0) ∧
    (info.longName = none → info.shortName = none →
      (enrich_holding h info).company_name = none) ∧
    (info.sector = none → (enrich_holding h info).sector = none) ∧
    (info.industry = none → (enrich_holding h info).industry = none) ∧
    (info.marketCap = none → (enrich_holding h info).market_cap = none) ∧
    (info.trailingPE = none → (enrich_holding h info).pe = none) ∧
    (info.dividendYield = none → (enrich_holding h info).dividend_yield = none) ∧
    (info.fiftyTwoWeekHigh = none → (enrich_holding h info).fifty_two_week_high = none) ∧
    (info.fiftyTwoWeekLow = none → (enrich_holding h info).fifty_two_week_low = none) := by
  refine ⟨?_, ?_, ?_, ?_, ?_, ?_, ?_, ?_, ?_⟩
  · intro h1 h2
    simp [enrich_holding, pyNumOr, h1, h2]
  · intro h1 h2
    simp [enrich_holding, strTruthy, h1, h2]
  · intro h1
    simp [enrich_holding, h1]
  · intro h1
    simp [enrich_holding, h1]
  · intro h1
    simp [enrich_holding, h1]
  · intro h1
    simp [enrich_holding, h1]
  · intro h1
    simp [enrich_holding, h1]
  · intro h1
    simp [enrich_holding, h1]
  · intro h1
    simp [enrich_holding, h1]

/-- Witness for the amended C9 theorem at a concrete holding and an empty
quote result. -/
theorem enrich_missing_fields_witness :
    (enrich_holding (mkH "X" none)
      ⟨none, none, none, none, none, none, none, none, none, none,
        none⟩).current_price = some 0 :=
  (enrich_missing_fields (mkH "X" none)
      ⟨none, none, none, none, none, none, none, none, none, none, none⟩).1 rfl rfl

/-- Claim C10 (counterexample): a zero-price holding "A" followed by a
second holding with the same symbol and value 100 gives total_value 100 > 0
but an allocation of [("A", 100)]: the later duplicate overwrites the
0.0 entry the claim promises to the zero-price holding. -/
theorem zero_price_allocation_overwritten :
    0 < (Portfolio.mk "P" [mkH "A" (some 0), mkH "A" (some 100)]).total_value ∧
    (Portfolio.mk "P" [mkH "A" (some 0), mkH "A" (some 100)]).get_allocation
      = [("A", 100)] ∧
    ("A", (0 : ℚ)) ∉
      (Portfolio.mk "P" [mkH "A" (some 0), mkH "A" (some 100)]).get_allocation := by
  refine ⟨?_, ?_, ?_⟩ <;>
    norm_num +decide [Portfolio.get_allocation, Portfolio.total_value, mkH,
      StockHolding.current_value, dictInsert]

/-- Claim C10 (amended): every holding whose current_price is present and
exactly 0 has current_value None, contributes exactly zero to total_value
(removing it leaves the total unchanged), and — provided the portfolio's
symbols are pairwise distinct — receives a 0.0 entry in the allocation
whenever total_value > 0. -/
theorem zero_price_holding_aggregates (pf : Portfolio) (h : StockHolding)
    (hmem : h ∈ pf.holdings) (hzero : h.current_price = some 0) :
    h.current_value = none ∧
    pf.total_value = (Portfolio.mk pf.name (pf.holdings.erase h)).total_value ∧
    ((pf.holdings.map StockHolding.symbol).Nodup → 0 < pf.total_value →
      (h.symbol, (0 : ℚ)) ∈ pf.get_allocation) := by
  have hcv : h.current_value = none := by
    simp [StockHolding.current_value, hzero]
  refine ⟨hcv, ?_, ?_⟩
  · have hperm : pf.holdings.Perm (h :: pf.holdings.erase h) :=
      List.perm_cons_erase hmem
    have hsum := (hperm.map (fun g => g.current_value.getD 0)).sum_eq
    unfold Portfolio.total_value
    rw [hsum]
    simp [hcv]
  · intro hnd hpos
    unfold Portfolio.get_allocation
    rw [if_neg (ne_of_gt hpos)]
    rw [foldl_dictInsert_eq _ pf.holdings [] hnd (by intro g hg kv hkv; cases hkv)]
    simp only [List.nil_append]
    have hentry : (h.symbol, (0 : ℚ))
        = (h.symbol, h.current_value.getD 0 / pf.total_value * 100) := by
      rw [hcv]
      simp
    rw [hentry]
    exact List.mem_map_of_mem _ hmem

/-- Witness for the amended C10 theorem on a concrete portfolio holding a
zero-priced "Z" and a positively priced "B". -/
theorem zero_price_holding_aggregates_witness :
    ((mkH "Z" (some 0)).symbol, (0 : ℚ)) ∈
      (Portfolio.mk "P" [mkH "Z" (some 0), mkH "B" (some 50)]).get_allocation :=
  (zero_price_holding_aggregates (Portfolio.mk "P" [mkH "Z" (some 0), mkH "B" (some 50)])
      (mkH "Z" (some 0)) (by simp) rfl).2.2 (by decide)
    (by norm_num [Portfolio.total_value, mkH, StockHolding.current_value])
